import Mathlib

set_option autoImplicit false

namespace UA

/-! Formal model of the open62541 data-model core declared in src/include/ua_types.h.
C machine integers are modelled as Nat/Int; heap memory is a map from addresses to
byte buffers together with a bump-allocation counter. Functions whose implementation
is only declared in the header are modelled from the specification and marked so in
their doc comments. -/

/-- Byte values carried by buffers. The development never computes with byte contents,
so plain Nat suffices as the carrier. -/
abbrev Byte := Nat

/-- A heap: cells are byte buffers, next is the bump-allocation counter, and ok records
that addresses at or above the counter are unallocated. -/
structure Heap where
  next : Nat
  mem : Nat → Option (List Byte)
  ok : ∀ a, next ≤ a → mem a = none

/-- Allocate a fresh cell holding the given bytes, returning its address. -/
def Heap.alloc (h : Heap) (bytes : List Byte) : Nat × Heap :=
  (h.next,
   { next := h.next + 1
     mem := fun a => if a = h.next then some bytes else h.mem a
     ok := by
       intro a ha
       have hne : a ≠ h.next := by omega
       show (if a = h.next then some bytes else h.mem a) = none
       rw [if_neg hne]
       exact h.ok a (by omega) })

/-- Release the cell at the given address. -/
def Heap.free (h : Heap) (addr : Nat) : Heap :=
  { next := h.next
    mem := fun a => if a = addr then none else h.mem a
    ok := by
      intro a ha
      show (if a = addr then none else h.mem a) = none
      by_cases hd : a = addr
      · rw [if_pos hd]
      · rw [if_neg hd]
        exact h.ok a ha }

/-- Read the first n bytes of the buffer stored at addr (empty if unallocated). -/
def Heap.readBytes (h : Heap) (addr : Nat) (n : Nat) : List Byte :=
  ((h.mem addr).getD []).take n

/-- Read the whole buffer stored at addr (empty if unallocated). -/
def Heap.readAll (h : Heap) (addr : Nat) : List Byte :=
  (h.mem addr).getD []

/-- The empty heap. -/
def emptyHeap : Heap :=
  { next := 0, mem := fun _ => none, ok := fun _ _ => rfl }

/-! Scalar bound constants, embedded exactly as defined in ua_types.h lines 66 to 74. -/

/-- Constant from ua_types.h line 68. -/
def UA_SBYTE_MAX : Int := 127

/-- Constant from ua_types.h line 69. -/
def UA_SBYTE_MIN : Int := -128

/-- Constant from ua_types.h line 73: the source defines it as 256. -/
def UA_BYTE_MAX : Int := 256

/-- Constant from ua_types.h line 74. -/
def UA_BYTE_MIN : Int := 0

/-- Documented range of UA_SByte, from the doc comment on line 66: an integer value
between -129 and 127. -/
def sbyteDocRange : Int × Int := (-129, 127)

/-- Documented range of UA_Byte, from the doc comment on line 71: an integer value
between 0 and 256. -/
def byteDocRange : Int × Int := (0, 256)

/-- True minimum of an 8-bit two-complement signed integer (int8_t). -/
def int8TrueMin : Int := -(2 ^ 7)

/-- True maximum of an 8-bit two-complement signed integer (int8_t). -/
def int8TrueMax : Int := 2 ^ 7 - 1

/-- True minimum of an 8-bit unsigned integer (uint8_t). -/
def uint8TrueMin : Int := 0

/-- True maximum of an 8-bit unsigned integer (uint8_t). -/
def uint8TrueMax : Int := 2 ^ 8 - 1

/-! Status codes. The file ua_statuscodes.h is not under src/; the spec (section 7)
names the error kinds raised by this core: OutOfMemory, OutOfRange, InvalidState,
plus the Good success code. -/

/-- Modelled from the spec: the status-code domain of section 7 (ua_statuscodes.h is
not under src/). One flat domain of result values. -/
inductive UA_StatusCode where
  | GOOD
  | BADOUTOFMEMORY
  | BADOUTOFRANGE
  | BADINVALIDSTATE
deriving DecidableEq, Repr

/-! Strings. UA_String (ua_types.h lines 113 to 116) is a length field and a data
pointer; the data pointer is modelled as a heap address. -/

/-- Embedding of UA_String (ua_types.h lines 113 to 116): length is UA_Int32, data is
a pointer modelled as a heap address. -/
structure UA_String where
  length : Int
  data : Nat
deriving DecidableEq, Repr

/-- Embedding of the UA_STRING_NULL constant (ua_types.h line 328): length -1 and a
null data pointer (address 0 in the model). -/
def UA_STRING_NULL : UA_String := { length := -1, data := 0 }

/-- In the model a C string literal is its byte content (without the terminating NUL)
together with the address the literal occupies; sizeof applied to the literal counts
the terminating NUL, hence content length plus one. -/
def sizeofLiteral (lit : List Byte) : Nat := lit.length + 1

/-- Embedding of the UA_STRING_ASSIGN macro (ua_types.h lines 329 to 331). The macro
sets length to sizeof(STRING)-1 and data to the literal address, cast unchanged. It
contains no allocator call, so the heap is returned untouched. -/
def UA_STRING_ASSIGN (h : Heap) (litAddr : Nat) (lit : List Byte) : UA_String × Heap :=
  ({ length := (sizeofLiteral lit : Int) - 1, data := litAddr }, h)

/-- Modelled from the spec: UA_String_equal is only declared in ua_types.h (line 335)
and its implementation is not under src/. Spec section 4.1: equality is defined as
equal length and equal bytes; an absent string (length -1) has no bytes to compare
and its data pointer is never dereferenced (Int.toNat of a negative length is 0). -/
def UA_String_equal (h : Heap) (s1 s2 : UA_String) : Bool :=
  s1.length == s2.length &&
    h.readBytes s1.data s1.length.toNat == h.readBytes s2.data s2.length.toNat

/-! Guid and NodeId. -/

/-- Embedding of UA_Guid (ua_types.h lines 125 to 130). -/
structure UA_Guid where
  data1 : Nat
  data2 : Nat
  data3 : Nat
  data4 : List Byte
deriving DecidableEq, Repr

/-- Modelled from the spec: UA_Guid_random is only declared in ua_types.h (line 356,
with the warning not to use it for security-critical entropy) and its implementation
is not under src/. The declaration passes the pseudo-random state as an explicit
in-out UA_UInt32 seed, so the function is modelled as a rand_r-style linear
congruential step of that seed. -/
def lcgNext (s : Nat) : Nat := (1103515245 * s + 12345) % 2 ^ 31

/-- Modelled from the spec: see lcgNext. Returns the generated Guid together with the
updated seed (the value stored back through the seed pointer). -/
def UA_Guid_random (seed : Nat) : UA_Guid × Nat :=
  let s1 := lcgNext seed
  let s2 := lcgNext s1
  let s3 := lcgNext s2
  let s4 := lcgNext s3
  ({ data1 := s1 % 2 ^ 32
     data2 := s2 % 2 ^ 16
     data3 := s3 % 2 ^ 16
     data4 := (List.range 8).map fun i => (s4 / 2 ^ i) % 2 ^ 8 }, s4)

/-- Embedding of the identifierType enum inside UA_NodeId (ua_types.h lines 142 to
147). toNat returns the wire values 2 to 5. -/
inductive UA_NodeIdType where
  | NUMERIC
  | STRING
  | GUID
  | BYTESTRING
deriving DecidableEq, Repr

/-- Embedding of the identifier union inside UA_NodeId (ua_types.h lines 148 to 153).
The union is modelled as a sum; the struct keeps the tag in a separate field exactly
as the C struct does. -/
inductive UA_NodeIdIdentifier where
  | numeric (v : Nat)
  | string (s : UA_String)
  | guid (g : UA_Guid)
  | byteString (b : UA_String)
deriving DecidableEq, Repr

/-- Embedding of UA_NodeId (ua_types.h lines 140 to 154). -/
structure UA_NodeId where
  namespaceIndex : Nat
  identifierType : UA_NodeIdType
  identifier : UA_NodeIdIdentifier
deriving DecidableEq, Repr

/-- Modelled from the spec: UA_NodeId_isNull is only declared in ua_types.h (line 364)
and its implementation is not under src/. Spec section 4.2: true exactly for a
numeric-typed NodeId with namespace 0 and numeric value 0. The union arm is read only
when the tag says numeric. -/
def UA_NodeId_isNull (p : UA_NodeId) : Bool :=
  match p.identifierType, p.identifier with
  | .NUMERIC, .numeric v => p.namespaceIndex == 0 && v == 0
  | _, _ => false

/-! Type descriptors (ua_types.h lines 409 to 430). -/

/-- Embedding of UA_DataTypeMember (ua_types.h lines 409 to 420). -/
structure UA_DataTypeMember where
  memberTypeIndex : Nat
  namespaceZero : Bool
  padding : Nat
  isArray : Bool
deriving DecidableEq, Repr

/-- Embedding of UA_DataType (ua_types.h lines 422 to 430). The fixed array of
UA_MAX_TYPE_MEMBERS member slots together with the membersSize count is modelled as a
list holding exactly the used slots; membersSize is its length. -/
structure UA_DataType where
  memSize : Nat
  typeIndex : Nat
  namespaceZero : Bool
  fixedSize : Bool
  zeroCopyable : Bool
  members : List UA_DataTypeMember
deriving DecidableEq, Repr

/-- The membersSize field of UA_DataType: the number of used member slots. -/
def UA_DataType.membersSize (dt : UA_DataType) : Nat := dt.members.length

/-- Embedding of the UA_MAX_TYPE_MEMBERS constant (ua_types.h line 401). -/
def UA_MAX_TYPE_MEMBERS : Nat := 13

/-! Array engine (ua_types.h lines 442 to 446). -/

/-- Embedding of the MAX_ARRAY_SIZE constant (ua_types.h line 442). -/
def MAX_ARRAY_SIZE : Int := 104857600

/-- Modelled from the spec: UA_Array_new is only declared in ua_types.h (line 444)
and its implementation is not under src/. Spec section 4.4: allocate count times
elementSize bytes; reject with OutOfRange if that product exceeds the global maximum;
a negative count denotes an absent array (a null pointer, no allocation); count 0
allocates a valid zero-length block. allocOk is the allocator oracle: when false, an
attempted allocation fails with OutOfMemory. The result pointer is none for the
absent array and some address otherwise. -/
def UA_Array_new (h : Heap) (allocOk : Bool) (noElements : Int) (dataType : UA_DataType) :
    Except UA_StatusCode (Option Nat) × Heap :=
  if noElements * (dataType.memSize : Int) > MAX_ARRAY_SIZE then
    (.error .BADOUTOFRANGE, h)
  else if noElements < 0 then
    (.ok none, h)
  else if allocOk then
    let (addr, h2) := h.alloc (List.replicate (noElements.toNat * dataType.memSize) 0)
    (.ok (some addr), h2)
  else
    (.error .BADOUTOFMEMORY, h)

/-! Variant (ua_types.h lines 193 to 237). -/

/-- Embedding of UA_VariantData (ua_types.h lines 193 to 198); pointers are heap
addresses. -/
structure UA_VariantData where
  arrayLength : Int
  dataPtr : Nat
  arrayDimensionsLength : Int
  arrayDimensions : Nat
deriving DecidableEq, Repr

/-- Embedding of UA_VariantDataSource (ua_types.h lines 207 to 213): an opaque handle
plus four callback pointers, all modelled as opaque addresses. -/
structure UA_VariantDataSource where
  handle : Nat
  read : Nat
  release : Nat
  write : Nat
  delete : Nat
deriving DecidableEq, Repr

/-- Embedding of the storageType enum inside UA_Variant (ua_types.h lines 224 to
232). -/
inductive UA_VariantStorageType where
  | DATA
  | DATA_NODELETE
  | DATASOURCE
deriving DecidableEq, Repr

/-- Embedding of the storage union inside UA_Variant (ua_types.h lines 233 to 236). -/
inductive UA_VariantStorage where
  | data (d : UA_VariantData)
  | datasource (ds : UA_VariantDataSource)
deriving DecidableEq, Repr

/-- Embedding of UA_Variant (ua_types.h lines 221 to 237). The const UA_DataType
pointer is modelled as an optional descriptor value. -/
structure UA_Variant where
  type : Option UA_DataType
  typeId : UA_NodeId
  storageType : UA_VariantStorageType
  storage : UA_VariantStorage
deriving Repr

/-- Modelled from the spec: UA_Variant_copy is only declared (through the handling
macro, ua_types.h line 320) and its implementation is not under src/. Spec sections
4.5 and 7: copying a DATASOURCE-mode Variant fails fast with InvalidState; otherwise
the data is deep-duplicated into a freshly owned (DATA) payload, with OutOfMemory on
allocation failure. The const source is returned alongside the result to express that
the call does not modify it. -/
def UA_Variant_copy (h : Heap) (allocOk : Bool) (src : UA_Variant) :
    Except UA_StatusCode UA_Variant × UA_Variant × Heap :=
  match src.storageType with
  | .DATASOURCE => (.error .BADINVALIDSTATE, src, h)
  | _ =>
    match src.storage with
    | .datasource _ => (.error .BADINVALIDSTATE, src, h)
    | .data d =>
      if allocOk then
        let (addr, h2) := h.alloc (h.readAll d.dataPtr)
        (.ok { src with storageType := .DATA, storage := .data { d with dataPtr := addr } },
         src, h2)
      else
        (.error .BADOUTOFMEMORY, src, h)

/-! Generic object engine. The implementations of UA_copy and UA_deleteMembers
(declared in ua_types.h lines 434 to 435) are not under src/, so the engine is
modelled from spec sections 3, 4.3 and 5. A runtime value of a described type is a
structural tree: prim holds the raw bytes of a fixed-size (pointer-free) member, buf
is a string-like member owning one heap buffer (length -1 meaning absent, owning
nothing), and a structured value is the chain of its member values in declared order
(structNil / structCons). -/

/-- Modelled from the spec: structural runtime values interpreted by the generic
engine (spec section 4.3); the member list of a structured value is the
structNil/structCons chain. -/
inductive Val where
  | prim (bytes : List Byte)
  | buf (len : Int) (addr : Nat)
  | structNil
  | structCons (v : Val) (rest : Val)
deriving DecidableEq, Repr

/-- The heap addresses owned by a value: the buffer of every present (non-absent)
string-like member. -/
def ownedAddrs : Val → List Nat
  | .prim _ => []
  | .buf len addr => if len < 0 then [] else [addr]
  | .structNil => []
  | .structCons v rest => ownedAddrs v ++ ownedAddrs rest

/-- A value of a fixedSize type: no member is a pointer (spec section 3, the
invariant that fixedSize implies no transitive member is a pointer or an array). -/
def fixedVal : Val → Bool
  | .prim _ => true
  | .buf _ _ => false
  | .structNil => true
  | .structCons v rest => fixedVal v && fixedVal rest

/-- Modelled from the spec: the generic deleteMembers walk (spec sections 3 and 4.3):
release every owned dynamically-sized sub-object, member by member, recursing into
structured members; fixed-size members own nothing. -/
def deleteMembersVal (h : Heap) : Val → Heap
  | .prim _ => h
  | .buf len addr => if len < 0 then h else h.free addr
  | .structNil => h
  | .structCons v rest => deleteMembersVal (deleteMembersVal h v) rest

/-- Modelled from the spec: the generic deep-copy walk (spec sections 4.3 and 5).
The allocator oracle o decides the fate of each allocation in order. Fixed-size
members are copied by raw bytes; a present string-like member allocates a duplicate
buffer, failing with OutOfMemory when the oracle says so; members of a structured
value are copied in declared order and, on a failure at member k, the members already
copied into the destination are rolled back with the generic deleteMembers walk
before the error is reported. On error no partially initialized value is returned. -/
def copyVal (o : List Bool) (h : Heap) : Val → Except UA_StatusCode Val × List Bool × Heap
  | .prim bytes => (.ok (.prim bytes), o, h)
  | .buf len addr =>
    if len < 0 then (.ok (.buf len 0), o, h)
    else
      match o with
      | true :: rest =>
        let (a2, h2) := h.alloc (h.readAll addr)
        (.ok (.buf len a2), rest, h2)
      | false :: rest => (.error .BADOUTOFMEMORY, rest, h)
      | [] => (.error .BADOUTOFMEMORY, [], h)
  | .structNil => (.ok .structNil, o, h)
  | .structCons v rest =>
    match copyVal o h v with
    | (.error e, o2, h2) => (.error e, o2, h2)
    | (.ok v2, o2, h2) =>
      match copyVal o2 h2 rest with
      | (.error e, o3, h3) => (.error e, o3, deleteMembersVal h3 v2)
      | (.ok rest2, o3, h3) => (.ok (.structCons v2 rest2), o3, h3)

/-- Modelled from the spec: UA_copy (declared ua_types.h line 434, implementation not
under src/). Spec section 4.3: a fixedSize type is copied as one raw-byte duplication
(which cannot fail and touches no allocator state); otherwise the generic member walk
runs with rollback on failure. -/
def UA_copy (dt : UA_DataType) (o : List Bool) (h : Heap) (src : Val) :
    Except UA_StatusCode Val × List Bool × Heap :=
  if dt.fixedSize then (.ok src, o, h) else copyVal o h src

/-- Modelled from the spec: UA_deleteMembers (declared ua_types.h line 435,
implementation not under src/). Spec section 4.3: fixedSize short-circuits
deleteMembers to a no-op, otherwise the generic member walk releases owned
sub-allocations. -/
def UA_deleteMembers (dt : UA_DataType) (h : Heap) (p : Val) : Heap :=
  if dt.fixedSize then h else deleteMembersVal h p

/-! Byte-level view of the copy engine, for the fixedSize short-circuit. A raw value
of a described type is its memSize bytes. -/

/-- The in-memory size of a member: the memSize of the type it references in the
descriptor table. -/
def memberSize (table : List UA_DataType) (m : UA_DataTypeMember) : Nat :=
  match table.get? m.memberTypeIndex with
  | some t => t.memSize
  | none => 0

/-- Modelled from the spec: the generic member-walking copy at the byte level (spec
section 4.3): traverse members in declared order, tracking a running byte offset
incremented by each member declared padding plus its size; padding bytes of the
destination are left as they were, member bytes are taken from the source. -/
def memberWalkCopyBytes (table : List UA_DataType) :
    List UA_DataTypeMember → List Byte → List Byte → List Byte
  | [], _, dst => dst
  | m :: ms, src, dst =>
    let p := m.padding
    let s := memberSize table m
    dst.take p ++ (src.drop p).take s ++
      memberWalkCopyBytes table ms ((src.drop p).drop s) ((dst.drop p).drop s)

/-- Modelled from the spec: the fixedSize short-circuit of UA_copy at the byte level
(spec section 4.3): one raw duplication of exactly memSize bytes from source to
destination, no member walk. -/
def fixedSizeCopyBytes (dt : UA_DataType) (src dst : List Byte) : List Byte :=
  src.take dt.memSize ++ dst.drop dt.memSize

/-- Modelled from the spec: UA_copy at the byte level: the fixedSize flag selects the
raw duplication, otherwise the generic member walk runs. -/
def UA_copyBytes (table : List UA_DataType) (dt : UA_DataType) (src dst : List Byte) :
    List Byte :=
  if dt.fixedSize then fixedSizeCopyBytes dt src dst
  else memberWalkCopyBytes table dt.members src dst

/-! Concrete instances used to evaluate the model on closed inputs. -/

/-- A one-byte fixedSize descriptor (a scalar such as UA_Byte). -/
def byteLikeType : UA_DataType :=
  { memSize := 1, typeIndex := 0, namespaceZero := true, fixedSize := true,
    zeroCopyable := true, members := [] }

/-- A descriptor table holding just the one-byte scalar type. -/
def exTable : List UA_DataType := [byteLikeType]

/-- A two-byte fixedSize descriptor with a single one-byte member preceded by one
byte of padding (such as a struct with alignment padding and no pointers). -/
def exPaddedType : UA_DataType :=
  { memSize := 2, typeIndex := 1, namespaceZero := true, fixedSize := true,
    zeroCopyable := false,
    members := [{ memberTypeIndex := 0, namespaceZero := true, padding := 1, isArray := false }] }

/-- A one-byte fixedSize descriptor whose single one-byte member tiles its memory
exactly (zero padding). -/
def exTiledType : UA_DataType :=
  { memSize := 1, typeIndex := 3, namespaceZero := true, fixedSize := true,
    zeroCopyable := true,
    members := [{ memberTypeIndex := 0, namespaceZero := true, padding := 0, isArray := false }] }

/-- A non-fixedSize descriptor with one string-like member. -/
def exStringStructType : UA_DataType :=
  { memSize := 16, typeIndex := 2, namespaceZero := true, fixedSize := false,
    zeroCopyable := false,
    members := [{ memberTypeIndex := 0, namespaceZero := true, padding := 0, isArray := false }] }

/-- A heap holding one three-byte buffer at address 0. -/
def heap1 : Heap :=
  { next := 1
    mem := fun a => if a = 0 then some [9, 9, 9] else none
    ok := fun a ha => if_neg (by omega) }

/-- A structured value with a single present string-like member pointing at the
buffer of heap1. -/
def srcVal : Val := .structCons (.buf 3 0) .structNil

/-- A DATASOURCE-mode Variant with a concrete handle and callback bundle. -/
def dsVariant : UA_Variant :=
  { type := none
    typeId := { namespaceIndex := 0, identifierType := .NUMERIC, identifier := .numeric 0 }
    storageType := .DATASOURCE
    storage := .datasource { handle := 7, read := 1, release := 2, write := 3, delete := 4 } }

/-! Lemmas about the generic engine. -/

/-- The deleteMembers walk never moves the allocation counter. -/
theorem deleteMembersVal_next (v : Val) : ∀ h : Heap, (deleteMembersVal h v).next = h.next := by
  induction v with
  | prim bytes => intro h; rfl
  | buf len addr =>
    intro h
    by_cases hlen : len < 0 <;> simp [deleteMembersVal, hlen, Heap.free]
  | structNil => intro h; rfl
  | structCons v rest ihv ihrest =>
    intro h
    simp only [deleteMembersVal]
    rw [ihrest, ihv]

/-- The deleteMembers walk releases exactly the owned addresses of the value. -/
theorem deleteMembersVal_mem (v : Val) : ∀ (h : Heap) (a : Nat),
    (deleteMembersVal h v).mem a = if a ∈ ownedAddrs v then none else h.mem a := by
  induction v with
  | prim bytes => intro h a; simp [deleteMembersVal, ownedAddrs]
  | buf len addr =>
    intro h a
    by_cases hlen : len < 0
    · simp [deleteMembersVal, ownedAddrs, hlen]
    · simp only [deleteMembersVal, ownedAddrs, hlen, if_false]
      simp [Heap.free]
  | structNil => intro h a; simp [deleteMembersVal, ownedAddrs]
  | structCons v rest ihv ihrest =>
    intro h a
    simp only [deleteMembersVal, ownedAddrs]
    rw [ihrest, ihv]
    by_cases h1 : a ∈ ownedAddrs v <;> by_cases h2 : a ∈ ownedAddrs rest <;>
      simp [h1, h2, List.mem_append]

/-- On a value of a fixedSize type (no pointer members) the deleteMembers walk is a
no-op on the heap. -/
theorem deleteMembersVal_fixed (v : Val) : ∀ h : Heap, fixedVal v = true →
    deleteMembersVal h v = h := by
  induction v with
  | prim bytes => intro h _; rfl
  | buf len addr => intro h hfix; simp [fixedVal] at hfix
  | structNil => intro h _; rfl
  | structCons v rest ihv ihrest =>
    intro h hfix
    simp only [fixedVal, Bool.and_eq_true] at hfix
    simp only [deleteMembersVal]
    rw [ihv h hfix.1, ihrest h hfix.2]

/-- A successful generic copy only grows the heap: it moves the allocation counter
forward, touches no address outside the copied value ownership, and every owned
address of the copy is fresh. -/
theorem copyVal_ok_spec (v : Val) : ∀ (o : List Bool) (h : Heap) (v2 : Val)
    (o2 : List Bool) (h2 : Heap), copyVal o h v = (.ok v2, o2, h2) →
    h.next ≤ h2.next ∧ (∀ a, a ∉ ownedAddrs v2 → h2.mem a = h.mem a) ∧
      (∀ a, a ∈ ownedAddrs v2 → h.next ≤ a) := by
  induction v with
  | prim bytes =>
    intro o h v2 o2 h2 heq
    simp only [copyVal, Prod.mk.injEq, Except.ok.injEq] at heq
    obtain ⟨rfl, rfl, rfl⟩ := heq
    exact ⟨le_refl _, fun a _ => rfl, by simp [ownedAddrs]⟩
  | buf len addr =>
    intro o h v2 o2 h2 heq
    by_cases hlen : len < 0
    · simp only [copyVal, if_pos hlen, Prod.mk.injEq, Except.ok.injEq] at heq
      obtain ⟨rfl, rfl, rfl⟩ := heq
      exact ⟨le_refl _, fun a _ => rfl, by simp [ownedAddrs, hlen]⟩
    · rcases o with _ | ⟨b, rest⟩
      · simp [copyVal, if_neg hlen] at heq
      · cases b
        · simp [copyVal, if_neg hlen] at heq
        · simp only [copyVal, if_neg hlen, Heap.alloc, Prod.mk.injEq, Except.ok.injEq] at heq
          obtain ⟨rfl, rfl, rfl⟩ := heq
          refine ⟨Nat.le_succ h.next, ?_, ?_⟩
          · intro a ha
            simp only [ownedAddrs, if_neg hlen, List.mem_singleton] at ha
            show (if a = h.next then some (h.readAll addr) else h.mem a) = h.mem a
            rw [if_neg ha]
          · intro a ha
            simp only [ownedAddrs, if_neg hlen, List.mem_singleton] at ha
            omega
  | structNil =>
    intro o h v2 o2 h2 heq
    simp only [copyVal, Prod.mk.injEq, Except.ok.injEq] at heq
    obtain ⟨rfl, rfl, rfl⟩ := heq
    exact ⟨le_refl _, fun a _ => rfl, by simp [ownedAddrs]⟩
  | structCons v rest ihv ihrest =>
    intro o h v2 o2 h2 heq
    simp only [copyVal] at heq
    rcases hv : copyVal o h v with ⟨res1, oA, hA⟩
    rw [hv] at heq
    rcases res1 with e1 | vA
    · simp at heq
    · simp only [] at heq
      rcases hr : copyVal oA hA rest with ⟨res2, oB, hB⟩
      rw [hr] at heq
      rcases res2 with e2 | restB
      · simp at heq
      · simp only [Prod.mk.injEq, Except.ok.injEq] at heq
        obtain ⟨rfl, rfl, rfl⟩ := heq
        obtain ⟨hnext1, hmem1, hfresh1⟩ := ihv o h vA oA hA hv
        obtain ⟨hnext2, hmem2, hfresh2⟩ := ihrest oA hA restB oB hB hr
        refine ⟨le_trans hnext1 hnext2, ?_, ?_⟩
        · intro a ha
          simp only [ownedAddrs, List.mem_append] at ha
          push_neg at ha
          rw [hmem2 a ha.2, hmem1 a ha.1]
        · intro a ha
          simp only [ownedAddrs, List.mem_append] at ha
          rcases ha with ha | ha
          · exact hfresh1 a ha
          · exact le_trans hnext1 (hfresh2 a ha)

/-- A failed generic copy leaves the live-cell map exactly as it was: everything the
failed walk had allocated into the destination has been released again. -/
theorem copyVal_err_spec (v : Val) : ∀ (o : List Bool) (h : Heap) (e : UA_StatusCode)
    (o2 : List Bool) (h2 : Heap), copyVal o h v = (.error e, o2, h2) →
    h2.mem = h.mem ∧ h.next ≤ h2.next := by
  induction v with
  | prim bytes => intro o h e o2 h2 heq; simp [copyVal] at heq
  | buf len addr =>
    intro o h e o2 h2 heq
    by_cases hlen : len < 0
    · simp [copyVal, if_pos hlen] at heq
    · rcases o with _ | ⟨b, rest⟩
      · simp only [copyVal, if_neg hlen, Prod.mk.injEq, Except.error.injEq] at heq
        obtain ⟨rfl, rfl, rfl⟩ := heq
        exact ⟨rfl, le_refl _⟩
      · cases b
        · simp only [copyVal, if_neg hlen, Prod.mk.injEq, Except.error.injEq] at heq
          obtain ⟨rfl, rfl, rfl⟩ := heq
          exact ⟨rfl, le_refl _⟩
        · simp [copyVal, if_neg hlen, Heap.alloc] at heq
  | structNil => intro o h e o2 h2 heq; simp [copyVal] at heq
  | structCons v rest ihv ihrest =>
    intro o h e o2 h2 heq
    simp only [copyVal] at heq
    rcases hv : copyVal o h v with ⟨res1, oA, hA⟩
    rw [hv] at heq
    rcases res1 with e1 | vA
    · simp only [Prod.mk.injEq, Except.error.injEq] at heq
      obtain ⟨rfl, rfl, rfl⟩ := heq
      exact ihv o h e1 oA hA hv
    · simp only [] at heq
      rcases hr : copyVal oA hA rest with ⟨res2, oB, hB⟩
      rw [hr] at heq
      rcases res2 with e2 | restB
      · simp only [Prod.mk.injEq, Except.error.injEq] at heq
        obtain ⟨rfl, rfl, rfl⟩ := heq
        obtain ⟨hnext1, hmem1, hfresh1⟩ := copyVal_ok_spec v o h vA oA hA hv
        obtain ⟨hmemB, hnextB⟩ := ihrest oA hA e2 oB hB hr
        constructor
        · funext a
          rw [deleteMembersVal_mem]
          by_cases hown : a ∈ ownedAddrs vA
          · rw [if_pos hown]
            exact (h.ok a (hfresh1 a hown)).symm
          · rw [if_neg hown]
            rw [congrFun hmemB a]
            exact hmem1 a hown
        · rw [deleteMembersVal_next]
          exact le_trans hnext1 hnextB
      · simp at heq

/-- When every declared padding is zero and the member sizes sum to the length of the
byte buffers, the member walk rewrites the whole destination with the source. -/
theorem memberWalk_tiling (table : List UA_DataType) :
    ∀ (ms : List UA_DataTypeMember) (src dst : List Byte),
      (∀ m ∈ ms, m.padding = 0) →
      (ms.map (memberSize table)).sum = src.length →
      src.length = dst.length →
      memberWalkCopyBytes table ms src dst = src := by
  intro ms
  induction ms with
  | nil =>
    intro src dst _ hsum hlen
    simp only [List.map_nil, List.sum_nil] at hsum
    have hsrc : src = [] := List.eq_nil_of_length_eq_zero hsum.symm
    have hdst : dst = [] := List.eq_nil_of_length_eq_zero (by omega)
    rw [hsrc, hdst]
    rfl
  | cons m ms ih =>
    intro src dst hpad hsum hlen
    have hp : m.padding = 0 := hpad m (List.mem_cons_self m ms)
    have hsums : memberSize table m + (ms.map (memberSize table)).sum = src.length := by
      simpa using hsum
    simp only [memberWalkCopyBytes, hp, List.drop_zero, List.take_zero, List.nil_append]
    rw [ih (src.drop (memberSize table m)) (dst.drop (memberSize table m))
        (fun x hx => hpad x (List.mem_cons_of_mem m hx))
        (by simp only [List.length_drop]; omega)
        (by simp only [List.length_drop]; omega)]
    exact List.take_append_drop _ src

/-! Claim theorems. -/

/-- C1: if UA_copy fails partway (an allocation failure while copying some member,
at any recursion depth), it returns an error code and leaves the destination in the
state of a freshly deleteMembers-ed object: every sub-allocation already copied into
the destination has been released (the live-cell map of the heap is exactly what it
was before the call), and no partially initialized value is returned. -/
theorem C1_copy_rollback (dt : UA_DataType) (o : List Bool) (h : Heap) (src : Val)
    (e : UA_StatusCode) (o2 : List Bool) (h2 : Heap)
    (hfail : UA_copy dt o h src = (.error e, o2, h2)) :
    h2.mem = h.mem := by
  unfold UA_copy at hfail
  by_cases hfix : dt.fixedSize = true
  · rw [if_pos hfix] at hfail
    simp at hfail
  · rw [if_neg hfix] at hfail
    exact (copyVal_err_spec src o h e o2 h2 hfail).1

/-- Witness for C1: a concrete run in which the allocator refuses the buffer of the
single string-like member; the copy fails and the heap is exactly as before. -/
theorem C1_copy_rollback_witness :
    ((UA_copy exStringStructType [false] heap1 srcVal).2.2).mem = heap1.mem :=
  C1_copy_rollback exStringStructType [false] heap1 srcVal .BADOUTOFMEMORY [] heap1 rfl

/-- C2 (amended): for a fixedSize descriptor, UA_deleteMembers is a no-op and agrees
with the generic member walk, which releases nothing on a pointer-free value; the
fixedSize short-circuit of UA_copy (one raw duplication of memSize bytes) agrees with
the generic member-walking copy whenever the declared paddings are zero and the
member sizes sum to memSize — with nonzero padding the two differ on padding bytes
only, see the counterexample. -/
theorem C2_fixed_size_amended :
    (∀ (table : List UA_DataType) (dt : UA_DataType) (src dst : List Byte),
      dt.fixedSize = true →
      (∀ m ∈ dt.members, m.padding = 0) →
      (dt.members.map (memberSize table)).sum = dt.memSize →
      src.length = dt.memSize → dst.length = dt.memSize →
      UA_copyBytes table dt src dst = src ∧
      memberWalkCopyBytes table dt.members src dst = src) ∧
    (∀ (dt : UA_DataType) (h : Heap) (v : Val),
      dt.fixedSize = true → fixedVal v = true →
      UA_deleteMembers dt h v = deleteMembersVal h v ∧ deleteMembersVal h v = h) := by
  constructor
  · intro table dt src dst hfix hpad hsum hsrc hdst
    constructor
    · unfold UA_copyBytes
      rw [if_pos hfix]
      unfold fixedSizeCopyBytes
      rw [← hsrc, List.take_length, List.drop_eq_nil_of_le (by omega), List.append_nil]
    · exact memberWalk_tiling table dt.members src dst hpad (by omega) (by omega)
  · intro dt h v hfix hval
    have hnoop := deleteMembersVal_fixed v h hval
    unfold UA_deleteMembers
    rw [if_pos hfix, hnoop]
    exact ⟨rfl, rfl⟩

/-- Counterexample for C2 as stated: on a fixedSize descriptor whose single member is
preceded by one byte of padding, the raw memSize-byte duplication and the generic
member walk produce different destination bytes (the walk preserves the destination
padding byte, the raw copy overwrites it). -/
theorem C2_fixed_size_counterexample :
    UA_copyBytes exTable exPaddedType [5, 6] [7, 8] ≠
      memberWalkCopyBytes exTable exPaddedType.members [5, 6] [7, 8] := by decide

/-- Witness for C2 (amended): a one-member descriptor with zero padding tiling its
single byte, on which the raw copy and the member walk coincide, and a fixedSize
no-op deleteMembers on a scalar value. -/
theorem C2_fixed_size_amended_witness :
    UA_copyBytes exTable exTiledType [5] [7] = [5] ∧
    UA_deleteMembers byteLikeType heap1 (.prim [4]) = deleteMembersVal heap1 (.prim [4]) := by
  constructor
  · exact (C2_fixed_size_amended.1 exTable exTiledType [5] [7] rfl
      (by decide) (by decide) rfl rfl).1
  · exact (C2_fixed_size_amended.2 byteLikeType heap1 (.prim [4]) rfl rfl).1

/-- C3: copying a Variant whose storageType is DATASOURCE returns the InvalidState
error, leaves the source Variant (including its datasource handle) unchanged, and
produces no copy at all, so ownership is never downgraded; the heap is untouched. -/
theorem C3_variant_copy_datasource (h : Heap) (allocOk : Bool) (src : UA_Variant)
    (hds : src.storageType = .DATASOURCE) :
    (UA_Variant_copy h allocOk src).1 = .error .BADINVALIDSTATE ∧
    (UA_Variant_copy h allocOk src).2.1 = src ∧
    (UA_Variant_copy h allocOk src).2.2 = h := by
  unfold UA_Variant_copy
  rw [hds]
  exact ⟨rfl, rfl, rfl⟩

/-- Witness for C3: a concrete DATASOURCE Variant is rejected with InvalidState and
returned unchanged. -/
theorem C3_variant_copy_datasource_witness :
    (UA_Variant_copy emptyHeap true dsVariant).1 = .error .BADINVALIDSTATE ∧
    (UA_Variant_copy emptyHeap true dsVariant).2.1 = dsVariant ∧
    (UA_Variant_copy emptyHeap true dsVariant).2.2 = emptyHeap :=
  C3_variant_copy_datasource emptyHeap true dsVariant rfl

/-- C4: UA_Array_new fails with the OutOfRange error whenever noElements times
memSize exceeds MAX_ARRAY_SIZE = 104857600, and in that case the heap is returned
untouched: no allocation is performed. -/
theorem C4_array_new_out_of_range :
    MAX_ARRAY_SIZE = 104857600 ∧
    ∀ (h : Heap) (allocOk : Bool) (noElements : Int) (dataType : UA_DataType),
      noElements * (dataType.memSize : Int) > MAX_ARRAY_SIZE →
      UA_Array_new h allocOk noElements dataType = (.error .BADOUTOFRANGE, h) := by
  refine ⟨rfl, ?_⟩
  intro h allocOk n dt hgt
  unfold UA_Array_new
  rw [if_pos hgt]

/-- Witness for C4: allocating 104857601 one-byte elements is rejected with
OutOfRange and the empty heap is returned unchanged. -/
theorem C4_array_new_out_of_range_witness :
    UA_Array_new emptyHeap true 104857601 byteLikeType = (.error .BADOUTOFRANGE, emptyHeap) :=
  C4_array_new_out_of_range.2 emptyHeap true 104857601 byteLikeType (by decide)

/-- C6: UA_Array_new with noElements = 0 succeeds and yields a valid, non-absent
pointer to a zero-length block, distinguishable from the result for noElements = -1,
which succeeds with the absent (null) array. -/
theorem C6_array_new_zero (h : Heap) (dt : UA_DataType) :
    (UA_Array_new h true 0 dt).1 = .ok (some h.next) ∧
    ((UA_Array_new h true 0 dt).2).mem h.next = some [] ∧
    (UA_Array_new h true (-1) dt).1 = .ok none ∧
    (UA_Array_new h true 0 dt).1 ≠ (UA_Array_new h true (-1) dt).1 := by
  have h0 : ¬((0 : Int) * (dt.memSize : Int) > MAX_ARRAY_SIZE) := by
    simp [MAX_ARRAY_SIZE]
  have hm : ¬((-1 : Int) * (dt.memSize : Int) > MAX_ARRAY_SIZE) := by
    have : (0 : Int) ≤ (dt.memSize : Int) := Int.natCast_nonneg _
    simp only [MAX_ARRAY_SIZE]
    omega
  have e0 : UA_Array_new h true 0 dt =
      (.ok (some h.next),
       { next := h.next + 1
         mem := fun a => if a = h.next then some (List.replicate ((0 : Int).toNat * dt.memSize) 0)
                         else h.mem a
         ok := (h.alloc (List.replicate ((0 : Int).toNat * dt.memSize) 0)).2.ok }) := by
    unfold UA_Array_new
    rw [if_neg h0, if_neg (by omega : ¬(0 : Int) < 0), if_pos rfl]
    rfl
  have em : UA_Array_new h true (-1) dt = (.ok none, h) := by
    unfold UA_Array_new
    rw [if_neg hm, if_pos (by omega : (-1 : Int) < 0)]
  refine ⟨?_, ?_, ?_, ?_⟩
  · rw [e0]
  · rw [e0]
    show (if h.next = h.next then some (List.replicate ((0 : Int).toNat * dt.memSize) 0)
          else h.mem h.next) = some []
    rw [if_pos rfl]
    simp
  · rw [em]
  · rw [e0, em]
    simp

/-- C5: UA_String_equal returns true exactly when the lengths are equal and the first
length bytes of the data are equal; it is reflexive; two absent strings (length -1)
are equal to each other; an absent string is never equal to an empty (length 0)
string. -/
theorem C5_string_equal :
    (∀ (h : Heap) (s1 s2 : UA_String),
      UA_String_equal h s1 s2 = true ↔
        (s1.length = s2.length ∧
         h.readBytes s1.data s1.length.toNat = h.readBytes s2.data s2.length.toNat)) ∧
    (∀ (h : Heap) (s : UA_String), UA_String_equal h s s = true) ∧
    (∀ (h : Heap) (s1 s2 : UA_String), s1.length = -1 → s2.length = -1 →
      UA_String_equal h s1 s2 = true) ∧
    (∀ (h : Heap) (s1 s2 : UA_String), s1.length = -1 → s2.length = 0 →
      UA_String_equal h s1 s2 = false) := by
  refine ⟨?_, ?_, ?_, ?_⟩
  · intro h s1 s2
    simp [UA_String_equal]
  · intro h s
    simp [UA_String_equal]
  · intro h s1 s2 h1 h2
    simp [UA_String_equal, h1, h2, Heap.readBytes]
  · intro h s1 s2 h1 h2
    simp [UA_String_equal, h1, h2]

/-- Witness for C5: the null string UA_STRING_NULL and another absent string compare
equal, and UA_STRING_NULL is not equal to a concrete empty string. -/
theorem C5_string_equal_witness :
    UA_String_equal emptyHeap UA_STRING_NULL { length := -1, data := 5 } = true ∧
    UA_String_equal emptyHeap UA_STRING_NULL { length := 0, data := 5 } = false :=
  ⟨C5_string_equal.2.2.1 emptyHeap UA_STRING_NULL { length := -1, data := 5 } rfl rfl,
   C5_string_equal.2.2.2 emptyHeap UA_STRING_NULL { length := 0, data := 5 } rfl rfl⟩

/-- C7: UA_NodeId_isNull returns true exactly when the identifierType is NUMERIC, the
namespaceIndex is 0 and the numeric identifier is 0. -/
theorem C7_nodeid_isnull (n : UA_NodeId) :
    UA_NodeId_isNull n = true ↔
      (n.identifierType = .NUMERIC ∧ n.namespaceIndex = 0 ∧
       n.identifier = .numeric 0) := by
  rcases n with ⟨ns, ty, id⟩
  cases ty <;> cases id <;> simp [UA_NodeId_isNull]

/-- Witness for C7: the all-zero numeric NodeId is null. -/
theorem C7_nodeid_isnull_witness :
    UA_NodeId_isNull
      { namespaceIndex := 0, identifierType := .NUMERIC, identifier := .numeric 0 } = true :=
  (C7_nodeid_isnull _).mpr ⟨rfl, rfl, rfl⟩

/-- C8: the signed 8-bit bound constants match the true int8_t range, but the code
defines UA_BYTE_MAX as 256 while the true uint8_t maximum is 255, and the documented
ranges (-129 for UA_SByte, 256 for UA_Byte) do not match the actual bit-width
bounds: the code contradicts the 8-bit types it declares. -/
theorem C8_byte_bounds_code_bug :
    UA_SBYTE_MIN = int8TrueMin ∧ UA_SBYTE_MAX = int8TrueMax ∧
    UA_BYTE_MIN = uint8TrueMin ∧ UA_BYTE_MAX = 256 ∧ UA_BYTE_MAX ≠ uint8TrueMax ∧
    sbyteDocRange.1 ≠ int8TrueMin ∧ byteDocRange.2 ≠ uint8TrueMax := by decide

/-- C9: UA_Guid_random is a deterministic function of the seed state: two calls from
equal seed values return equal Guids and equal updated seeds. -/
theorem C9_guid_random_deterministic (s1 s2 : Nat) (h : s1 = s2) :
    (UA_Guid_random s1).1 = (UA_Guid_random s2).1 ∧
    (UA_Guid_random s1).2 = (UA_Guid_random s2).2 := by
  subst h
  exact ⟨rfl, rfl⟩

/-- Witness for C9: two calls from seed 42 agree on the Guid and the updated seed. -/
theorem C9_guid_random_deterministic_witness :
    (UA_Guid_random 42).1 = (UA_Guid_random 42).1 ∧
    (UA_Guid_random 42).2 = (UA_Guid_random 42).2 :=
  C9_guid_random_deterministic 42 42 rfl

/-- C10: UA_STRING_ASSIGN sets the length field to sizeof of the literal minus one
(the byte length of the literal without the terminating NUL) and the data field to
the literal address itself, performing no allocation and no copy: the resulting
string borrows the literal memory. -/
theorem C10_string_assign (h : Heap) (litAddr : Nat) (lit : List Byte) :
    (UA_STRING_ASSIGN h litAddr lit).1.length = (sizeofLiteral lit : Int) - 1 ∧
    (UA_STRING_ASSIGN h litAddr lit).1.length = (lit.length : Int) ∧
    (UA_STRING_ASSIGN h litAddr lit).1.data = litAddr ∧
    (UA_STRING_ASSIGN h litAddr lit).2 = h := by
  refine ⟨rfl, ?_, rfl, rfl⟩
  show ((lit.length + 1 : Nat) : Int) - 1 = (lit.length : Int)
  push_cast
  ring

end UA
